import Mathlib

/-!
Verification of the casebase-demo RAG backend.

This file gives a shallow embedding, in Lean 4, of the algorithmically
interesting parts of the repository:

* `splitTextIntoChunks` (upload.service): boundary-aware text chunking
  with overlap;
* the chat pipeline `query` and its helpers `compressContext`,
  `buildContextFromResults`, `composePrompt` (chat.service), with the
  remote OpenAI / Pinecone calls modelled as oracle functions that may
  return `Except.error`;
* the input validation of the `POST /chat/query` controller
  (chat.controller);
* `storeVectors` (vector-store.service), with the remote upsert call
  modelled as an oracle and the batches actually sent to it tracked.

Strings are modelled as Lean `String` / `List Char`; JavaScript numbers
that carry fractional values (similarity scores, token estimates) are
modelled as `ℚ`, with integer-valued quantities as `Nat`/`Int` where the
source only ever uses them integrally.
-/

/- Batteries marks the `Rat` field operations `@[irreducible]`; make them
transparent inside this file so that `decide`/`rfl` can evaluate the
pipeline on the concrete rational scores and token budgets appearing in
the witnesses and counterexamples below. -/
attribute [local semireducible] Rat.add Rat.mul Rat.sub Rat.inv Rat.ofScientific

namespace Casebase

/-! ### Generic helpers over lists and strings -/

/-- JavaScript `text.lastIndexOf(c, fromIndex)` on a character: the largest
index `i ≤ fromIndex` with `s[i] = c`, or `-1` when there is none.  (For the
uses in this file `fromIndex < s.length` always holds, where this definition
agrees with JavaScript exactly.) -/
def lastIndexOfFrom (s : List Char) (c : Char) : Nat → Int
  | 0 => if s[0]? = some c then 0 else -1
  | n + 1 => if s[n + 1]? = some c then (n + 1 : Nat) else lastIndexOfFrom s c n

/-- Leading- and trailing-whitespace removal, JavaScript `String.trim` on a
character list. -/
def trimList (s : List Char) : List Char :=
  ((s.dropWhile Char.isWhitespace).reverse.dropWhile Char.isWhitespace).reverse

theorem length_dropWhile_le_self {α : Type} (p : α → Bool) (l : List α) :
    (l.dropWhile p).length ≤ l.length := by
  induction l with
  | nil => simp [List.dropWhile]
  | cons a l ih =>
    simp only [List.dropWhile]
    split
    · exact le_trans ih (by simp)
    · simp

theorem trimList_length_le (s : List Char) : (trimList s).length ≤ s.length := by
  unfold trimList
  calc ((s.dropWhile Char.isWhitespace).reverse.dropWhile Char.isWhitespace).reverse.length
      = ((s.dropWhile Char.isWhitespace).reverse.dropWhile Char.isWhitespace).length := by
        rw [List.length_reverse]
    _ ≤ (s.dropWhile Char.isWhitespace).reverse.length :=
        length_dropWhile_le_self _ _
    _ = (s.dropWhile Char.isWhitespace).length := by rw [List.length_reverse]
    _ ≤ s.length := length_dropWhile_le_self _ _

theorem lastIndexOfFrom_le (s : List Char) (c : Char) (n : Nat) :
    lastIndexOfFrom s c n ≤ (n : Int) := by
  induction n with
  | zero => unfold lastIndexOfFrom; split <;> simp
  | succ n ih =>
    unfold lastIndexOfFrom
    split
    · simp
    · exact le_trans ih (by omega)

/-! ### Text chunker (upload.service.ts, `splitTextIntoChunks`) -/

/-- The break point considered for the window starting at `start`:
`max(lastPeriod, lastNewline, lastSpace)` searched backward from `endIndex
= min(startIndex + chunkSize, textLength)`; `-1` when none of the three
characters occurs. -/
def windowBreakPoint (text : List Char) (chunkSize start : Nat) : Int :=
  let endIndex := min (start + chunkSize) text.length
  max (lastIndexOfFrom text '.' endIndex)
    (max (lastIndexOfFrom text '\n' endIndex) (lastIndexOfFrom text ' ' endIndex))

/-- The break-point acceptance condition: the best break point clears the
50%-of-chunkSize backtrack window.  `breakPoint > startIndex + chunkSize *
0.5` is stated integrally as `2 * breakPoint > 2 * startIndex + chunkSize`,
which is equivalent for the integer quantities involved. -/
def breakAccepted (text : List Char) (chunkSize start : Nat) : Prop :=
  2 * windowBreakPoint text chunkSize start
    > 2 * (start : Int) + (chunkSize : Int)

instance (text : List Char) (chunkSize start : Nat) :
    Decidable (breakAccepted text chunkSize start) := by
  unfold breakAccepted; infer_instance

/-- One window of the chunking loop: given the window start, the chunk end
index chosen by the source.  When the window does not reach the end of the
text and the break point is accepted, `chunkEnd = breakPoint + 1`;
otherwise the hard cutoff `endIndex`. -/
def windowChunkEnd (text : List Char) (chunkSize start : Nat) : Nat :=
  let endIndex := min (start + chunkSize) text.length
  if endIndex < text.length then
    if 2 * windowBreakPoint text chunkSize start
        > 2 * (start : Int) + (chunkSize : Int) then
      (windowBreakPoint text chunkSize start + 1).toNat
    else
      endIndex
  else
    endIndex

/-- The start index of the next window: `max(chunkEnd - overlap,
startIndex + 1)` (the source's "ensure progress" floor).  In JavaScript
`chunkEnd - overlap` may be negative, in which case the maximum is
`startIndex + 1 ≥ 1`; Nat truncated subtraction gives the same value. -/
def nextStart (overlap start chunkEnd : Nat) : Nat :=
  max (chunkEnd - overlap) (start + 1)

/-- The `while (startIndex < textLength)` loop of `splitTextIntoChunks`:
cut the window at `windowChunkEnd`, trim the substring, keep it if
non-empty, and advance to `nextStart`. -/
def chunkLoop (text : List Char) (chunkSize overlap : Nat) (start : Nat)
    (acc : List (List Char)) : List (List Char) :=
  if h : start < text.length then
    let chunkEnd := windowChunkEnd text chunkSize start
    let chunk := trimList ((text.drop start).take (chunkEnd - start))
    let acc' := if chunk.length > 0 then acc ++ [chunk] else acc
    chunkLoop text chunkSize overlap (nextStart overlap start chunkEnd) acc'
  else
    acc
termination_by text.length - start
decreasing_by
  simp only [nextStart]
  omega

/-- `splitTextIntoChunks` from upload.service.ts: texts no longer than
`chunkSize` are returned as a single chunk, longer texts go through the
windowed loop. -/
def splitTextIntoChunks (chunkSize overlap : Nat) (text : List Char) :
    List (List Char) :=
  if text.length ≤ chunkSize then [text]
  else chunkLoop text chunkSize overlap 0 []

/-- Number of iterations the chunking loop performs from a given start. -/
def chunkLoopIters (text : List Char) (chunkSize overlap : Nat) (start : Nat) :
    Nat :=
  if h : start < text.length then
    chunkLoopIters text chunkSize overlap
      (nextStart overlap start (windowChunkEnd text chunkSize start)) + 1
  else
    0
termination_by text.length - start
decreasing_by
  simp only [nextStart]
  omega

theorem windowBreakPoint_le (text : List Char) (chunkSize start : Nat) :
    windowBreakPoint text chunkSize start
      ≤ ((min (start + chunkSize) text.length : Nat) : Int) := by
  simp only [windowBreakPoint]
  exact max_le (lastIndexOfFrom_le text '.' _)
    (max_le (lastIndexOfFrom_le text '\n' _) (lastIndexOfFrom_le text ' ' _))

theorem windowChunkEnd_le (text : List Char) (chunkSize start : Nat) :
    windowChunkEnd text chunkSize start ≤ start + chunkSize + 1 := by
  simp only [windowChunkEnd]
  have hbp := windowBreakPoint_le text chunkSize start
  have hmin : min (start + chunkSize) text.length ≤ start + chunkSize :=
    Nat.min_le_left _ _
  split
  · split
    · omega
    · omega
  · omega

/-- Any chunk emitted by one loop window has length at most
`chunkSize + 1`. -/
theorem window_chunk_length_le (text : List Char) (chunkSize overlap start : Nat) :
    (trimList ((text.drop start).take (windowChunkEnd text chunkSize start - start))).length
      ≤ chunkSize + 1 := by
  have h1 := trimList_length_le ((text.drop start).take (windowChunkEnd text chunkSize start - start))
  have h2 : ((text.drop start).take (windowChunkEnd text chunkSize start - start)).length
      ≤ windowChunkEnd text chunkSize start - start := by
    exact List.length_take_le _ _
  have h3 := windowChunkEnd_le text chunkSize start
  omega

theorem chunkLoop_length_le (text : List Char) (chunkSize overlap : Nat) :
    ∀ n start acc, text.length - start ≤ n →
      (∀ c ∈ acc, c.length ≤ chunkSize + 1) →
      ∀ c ∈ chunkLoop text chunkSize overlap start acc, c.length ≤ chunkSize + 1 := by
  intro n
  induction n with
  | zero =>
    intro start acc hle hacc c hc
    rw [chunkLoop] at hc
    rw [dif_neg (by omega)] at hc
    exact hacc c hc
  | succ n ih =>
    intro start acc hle hacc c hc
    rw [chunkLoop] at hc
    by_cases h : start < text.length
    · rw [dif_pos h] at hc
      refine ih (nextStart overlap start (windowChunkEnd text chunkSize start))
        _ ?_ ?_ c hc
      · simp only [nextStart]; omega
      · intro d hd
        by_cases hk :
            (trimList ((text.drop start).take (windowChunkEnd text chunkSize start - start))).length > 0
        · rw [if_pos hk] at hd
          rcases List.mem_append.mp hd with hd | hd
          · exact hacc d hd
          · rcases List.mem_singleton.mp hd with rfl
            exact window_chunk_length_le text chunkSize overlap start
        · rw [if_neg hk] at hd
          exact hacc d hd
    · rw [dif_neg h] at hc
      exact hacc c hc

theorem chunkLoopIters_le (text : List Char) (chunkSize overlap : Nat) :
    ∀ n start, text.length - start ≤ n →
      chunkLoopIters text chunkSize overlap start ≤ text.length - start := by
  intro n
  induction n with
  | zero =>
    intro start hle
    rw [chunkLoopIters, dif_neg (by omega)]
    omega
  | succ n ih =>
    intro start hle
    by_cases h : start < text.length
    · rw [chunkLoopIters, dif_pos h]
      have hnext : start + 1 ≤ nextStart overlap start (windowChunkEnd text chunkSize start) := by
        simp only [nextStart]; omega
      have := ih (nextStart overlap start (windowChunkEnd text chunkSize start)) (by omega)
      omega
    · rw [chunkLoopIters, dif_neg h]
      omega

/-- The concrete text used in the chunker counterexamples: `"abcd.xyz"`,
chunked with `chunkSize = 4`, `overlap = 0`.  The first window runs over
indices `[0, 4)`; the backward search from `endIndex = 4` finds the period
at index 4 itself, which clears the backtrack window (`2·4 > 2·0 + 4`), so
`chunkEnd = 5` and the first emitted chunk is `"abcd."` of length 5. -/
def chunkCexText : List Char := ['a', 'b', 'c', 'd', '.', 'x', 'y', 'z']

/-- C6: FALSIFIED at `chunkSize = 4`, `overlap = 0`, text `"abcd.xyz"`: a
break point (the period at index 4) is found and accepted within the
50%-of-chunkSize backtrack window, yet the emitted chunk `"abcd."` has
length 5 > 4 — the overshoot happens in the accepted-break case, not in
the no-break case the claim excepts. -/
theorem C6_counterexample :
    breakAccepted chunkCexText 4 0 ∧
    ['a', 'b', 'c', 'd', '.'] ∈ splitTextIntoChunks 4 0 chunkCexText ∧
    4 < (['a', 'b', 'c', 'd', '.'] : List Char).length := by
  refine ⟨by decide, ?_, by decide⟩
  simp [splitTextIntoChunks, chunkLoop, windowChunkEnd, windowBreakPoint,
    lastIndexOfFrom, nextStart, trimList, chunkCexText]

/-- C6 (amended): for every text, chunk size and overlap, every chunk
returned by `splitTextIntoChunks` has length at most `chunkSize + 1`; the
configured chunk size can be exceeded (by exactly one character) when the
accepted break point lies exactly at the window's naive end. -/
theorem C6_chunk_length_bound (chunkSize overlap : Nat) (text : List Char)
    (c : List Char) (hc : c ∈ splitTextIntoChunks chunkSize overlap text) :
    c.length ≤ chunkSize + 1 := by
  unfold splitTextIntoChunks at hc
  split at hc
  · rcases List.mem_singleton.mp hc with rfl
    omega
  · exact chunkLoop_length_le text chunkSize overlap text.length 0 []
      (by omega) (by simp) c hc

/-- C6 amended-theorem witness: on `"abcd.xyz"` with `chunkSize = 4`,
`overlap = 0`, the chunk `"abcd."` is produced and obeys the `≤ 5`
bound. -/
theorem C6_witness :
    (['a', 'b', 'c', 'd', '.'] ∈ splitTextIntoChunks 4 0 chunkCexText) ∧
    (['a', 'b', 'c', 'd', '.'] : List Char).length ≤ 4 + 1 := by
  have hmem : ['a', 'b', 'c', 'd', '.'] ∈ splitTextIntoChunks 4 0 chunkCexText := by
    simp [splitTextIntoChunks, chunkLoop, windowChunkEnd, windowBreakPoint,
      lastIndexOfFrom, nextStart, trimList, chunkCexText]
  exact ⟨hmem, C6_chunk_length_bound 4 0 chunkCexText _ hmem⟩

/-- C7: for every text, any `chunkSize ≥ 1` and any `overlap ≥ 0`
(including `overlap ≥ chunkSize`), each loop iteration advances the window
start by at least 1, and the chunking loop performs at most
`text.length` iterations.  (`chunkLoop`/`chunkLoopIters` being accepted by
Lean's termination checker is the termination statement itself; the bound
below is proved for every `chunkSize`, which subsumes `chunkSize ≥ 1`.) -/
theorem C7_termination (chunkSize overlap : Nat) (text : List Char) :
    (∀ start chunkEnd, start + 1 ≤ nextStart overlap start chunkEnd) ∧
    chunkLoopIters text chunkSize overlap 0 ≤ text.length := by
  constructor
  · intro start chunkEnd
    simp only [nextStart]
    omega
  · have := chunkLoopIters_le text chunkSize overlap text.length 0 (by omega)
    omega

/-- C8: FALSIFIED at `chunkSize = 4`, `overlap = 0`, text `"abcd.xyz"`,
first window (`previousStart = 0`): the accepted break point is the period
at index 4, and the next window start is `max(breakPoint + 1 - overlap,
previousStart + 1) = 5`, not `max(breakPoint - overlap, previousStart + 1)
= 4` as the claim states — the code subtracts the overlap from `chunkEnd =
breakPoint + 1`, one past the break character. -/
theorem C8_counterexample :
    breakAccepted chunkCexText 4 0 ∧
    windowBreakPoint chunkCexText 4 0 = 4 ∧
    nextStart 0 0 (windowChunkEnd chunkCexText 4 0) = 5 ∧
    nextStart 0 0 (windowChunkEnd chunkCexText 4 0) ≠ max (4 - 0) (0 + 1) := by
  decide

/-- C8 (amended): whenever a window (one that does not reach the text end)
ends at an accepted break point, the next window's start equals
`max(breakPoint + 1 - overlap, previousStart + 1)`, where `breakPoint` is
the position of the chosen period/newline/space character (the code
subtracts the overlap from `chunkEnd = breakPoint + 1`). -/
theorem C8_next_start (text : List Char) (chunkSize overlap start : Nat)
    (hwin : start + chunkSize < text.length)
    (hacc : breakAccepted text chunkSize start) :
    nextStart overlap start (windowChunkEnd text chunkSize start) =
      max ((windowBreakPoint text chunkSize start).toNat + 1 - overlap)
        (start + 1) := by
  unfold breakAccepted at hacc
  have hbp0 : 0 ≤ windowBreakPoint text chunkSize start := by omega
  unfold nextStart windowChunkEnd
  rw [if_pos (by omega), if_pos hacc]
  omega

/-- C8 amended-theorem witness at the first window of `"abcd.xyz"` with
`chunkSize = 4`, `overlap = 0`. -/
theorem C8_witness :
    (0 + 4 < chunkCexText.length ∧ breakAccepted chunkCexText 4 0) ∧
    nextStart 0 0 (windowChunkEnd chunkCexText 4 0) =
      max ((windowBreakPoint chunkCexText 4 0).toNat + 1 - 0) (0 + 1) :=
  ⟨⟨by decide, by decide⟩, C8_next_start chunkCexText 4 0 0 (by decide) (by decide)⟩

/-! ### Chat service data model (chat.service.ts) -/

/-- Roles of OpenAI chat messages. -/
inductive Role where
  | system
  | user
  | assistant
deriving DecidableEq, Repr

/-- `ChatMessage` of chat.service.ts. -/
structure ChatMessage where
  role : Role
  content : String
deriving DecidableEq, Repr

/-- Roles allowed in the conversation history handed to `query` (the source
restricts them to `user | assistant`). -/
inductive HistRole where
  | user
  | assistant
deriving DecidableEq, Repr

/-- One prior conversation turn as passed to `query`. -/
structure HistMessage where
  role : HistRole
  content : String
deriving DecidableEq, Repr

/-- The slice of `result.metadata` the chat service actually reads (the
source types it `any` and accesses only `.text` and `.filename`, each
through optional chaining). -/
structure SRMetadata where
  text : Option String
  filename : Option String
deriving DecidableEq, Repr

/-- A similarity-search result `{ id, score, metadata }`. -/
structure SearchResult where
  id : String
  score : ℚ
  metadata : SRMetadata
deriving DecidableEq, Repr

/-- Options passed to `createChatCompletion`. -/
structure CompletionOptions where
  model : String
  temperature : ℚ
  max_tokens : ℚ
deriving DecidableEq, Repr

/-- `message` of a completion choice; `content` may be null. -/
structure ChoiceMsg where
  content : Option String
deriving DecidableEq, Repr

/-- One completion choice; the source reads it as `choices[0]?.message?`. -/
structure Choice where
  message : Option ChoiceMsg
deriving DecidableEq, Repr

/-- Token usage as reported by the provider. -/
structure Usage where
  prompt_tokens : Nat
  completion_tokens : Nat
  total_tokens : Nat
deriving DecidableEq, Repr

/-- A chat completion: choices plus possibly-absent usage. -/
structure Completion where
  choices : List Choice
  usage : Option Usage
deriving DecidableEq, Repr

/-- One entry of the `context` array of a `ChatResponse`. -/
structure ContextItem where
  text : String
  score : ℚ
  source : Option String
deriving DecidableEq, Repr

/-- The `tokensUsed` field of a `ChatResponse`. -/
structure TokensUsed where
  prompt : Nat
  completion : Nat
  total : Nat
deriving DecidableEq, Repr

/-- `ChatResponse` of chat.service.ts; `context = none` models an absent
(`undefined`) context field. -/
structure ChatResponse where
  answer : String
  context : Option (List ContextItem)
  tokensUsed : TokensUsed
deriving DecidableEq, Repr

/-- The remote services the chat pipeline calls, modelled as oracles:
OpenAI embedding (via vectorStoreService.generateEmbedding), Pinecone
similarity search, and OpenAI chat completion.  An `Except.error` models a
thrown/rejected call. -/
structure ChatEnv where
  generateEmbedding : String → Except String (List ℚ)
  similaritySearch : List ℚ → ℚ → Except String (List SearchResult)
  createChatCompletion : List ChatMessage → CompletionOptions → Except String Completion

/-- JavaScript `a || b` on a possibly-absent string: `none` and the empty
string are falsy and select the fallback. -/
def jsOrElse (s : Option String) (fallback : String) : String :=
  match s with
  | some v => if v = "" then fallback else v
  | none => fallback

/-- `completion.choices[0]?.message?.content`. -/
def completionContent (c : Completion) : Option String :=
  (c.choices.head?.bind Choice.message).bind ChoiceMsg.content

/-- An apostrophe character, used in the prompt string constants. -/
def apos : String := String.singleton (Char.ofNat 39)

/-- System instruction for RAG mode (constructor of ChatService). -/
def systemInstruction : String :=
  "You are a helpful assistant that answers questions based on the provided context from uploaded documents. \nUse the context information to answer the user"
    ++ apos ++
  "s question accurately and comprehensively. \nIf the context doesn"
    ++ apos ++
  "t contain enough information to answer the question, say so clearly.\nAlways cite the source when possible."

/-- System instruction for general (non-RAG) questions. -/
def generalSystemInstruction : String :=
  "You are a helpful AI assistant. Answer questions clearly and comprehensively. \nIf the question is about uploaded documents, refer to the context provided. \nOtherwise, use your general knowledge to provide helpful answers."

/-- JavaScript `score.toFixed(3)` on a rational score. -/
def toFixed3 (q : ℚ) : String :=
  let n : Int := round (q * 1000)
  let sign := if n < 0 then "-" else ""
  let m := n.natAbs
  let frac := m % 1000
  let fracStr :=
    if frac < 10 then "00" ++ toString frac
    else if frac < 100 then "0" ++ toString frac
    else toString frac
  sign ++ toString (m / 1000) ++ "." ++ fracStr

/-- `buildContextFromResults` of chat.service.ts. -/
def buildContextFromResults (results : List SearchResult) : String :=
  if results.length = 0 then
    "No relevant context found in the knowledge base."
  else
    let contextParts := results.enum.map fun p =>
      "[Context " ++ toString (p.1 + 1) ++ "] (Source: "
        ++ jsOrElse p.2.metadata.filename "Unknown"
        ++ ", Relevance: " ++ toFixed3 p.2.score ++ ")\n"
        ++ jsOrElse p.2.metadata.text ""
    String.intercalate "\n\n---\n\n" contextParts

/-- The compression prompt assembled by `compressContext`. -/
def compressionPromptFor (userQuestion context : String)
    (maxSummaryTokens : ℚ) : String :=
  "You are a context compression assistant. Your task is to summarize the following retrieved document chunks while preserving all information relevant to answering the user"
    ++ apos ++ "s question.\n\nUser" ++ apos ++ "s question: "
    ++ userQuestion
    ++ "\n\nRetrieved context chunks:\n" ++ context
    ++ "\n\nInstructions:\n1. Summarize each chunk, keeping only information relevant to the user"
    ++ apos ++
    "s question\n2. Preserve key facts, numbers, dates, and specific details\n3. Maintain source attribution (filename) for each summarized chunk\n4. Remove redundant information\n5. Keep the summary concise but comprehensive\n6. Target length: approximately "
    ++ toString maxSummaryTokens
    ++ " tokens or less\n\nProvide a compressed summary that maintains all relevant information:"

/-- The two-message list `compressContext` sends to the completion call. -/
def compressionMessages (userQuestion context : String)
    (maxSummaryTokens : ℚ) : List ChatMessage :=
  [ { role := Role.system,
      content := "You are an expert at compressing and summarizing text while preserving critical information." },
    { role := Role.user,
      content := compressionPromptFor userQuestion context maxSummaryTokens } ]

/-- The completion options `compressContext` uses. -/
def compressionOptionsFor (maxSummaryTokens : ℚ) : CompletionOptions :=
  { model := "gpt-4o-mini", temperature := 0.3,
    max_tokens := maxSummaryTokens + 100 }

/-- `compressContext` of chat.service.ts.  Returns the resulting context
string together with a flag recording whether a completion call was issued.
If the estimated token count `context.length / 4` is at most
`maxSummaryTokens` the input is returned unchanged without any call; the
whole body runs under a `try`/`catch` that falls back to the original
context on any completion failure. -/
def compressContext (env : ChatEnv) (context userQuestion : String)
    (maxSummaryTokens : ℚ) : String × Bool :=
  let estimatedTokens : ℚ := (context.length : ℚ) / 4
  if estimatedTokens ≤ maxSummaryTokens then
    (context, false)
  else
    match env.createChatCompletion
        (compressionMessages userQuestion context maxSummaryTokens)
        (compressionOptionsFor maxSummaryTokens) with
    | Except.error _ => (context, true)
    | Except.ok compressionResult =>
        (jsOrElse (completionContent compressionResult) context, true)

/-- `composePrompt` of chat.service.ts. -/
def composePrompt (userQuestion context : String) : String :=
  "Based on the following context from uploaded documents, please answer the user"
    ++ apos ++
  "s question.\n\nContext from documents:\n" ++ context ++ "\n\nUser"
    ++ apos ++ "s question: " ++ userQuestion
    ++ "\n\nPlease provide a comprehensive answer based on the context above. If the context doesn"
    ++ apos ++ "t contain enough information, please say so."

/-- The relevance threshold used in Step 3 of `query`. -/
def relevanceThreshold : ℚ := 0.5

/-- Step 3 of `query` (chat.service.ts lines 79–99), the Retrieval Filter:
keep the results whose score clears the threshold; if none do but results
exist, fall back to all results; with no results at all, no context is
used.  Returns `(useContext, selected)`. -/
def retrievalFilterStep (searchResults : List SearchResult) :
    Bool × List SearchResult :=
  let relevantResults :=
    searchResults.filter fun r => decide (relevanceThreshold ≤ r.score)
  if relevantResults.length > 0 then (true, relevantResults)
  else if searchResults.length > 0 then (true, searchResults)
  else (false, searchResults)

/-- The completion options of Step 5 of `query`. -/
def queryCompletionOptions : CompletionOptions :=
  { model := "gpt-4o-mini", temperature := 0.7, max_tokens := 1000 }

/-- JavaScript `conversationHistory.slice(-10)`: the last (at most) 10
turns. -/
def historyWindow (h : List HistMessage) : List HistMessage :=
  h.drop (h.length - 10)

/-- Conversion of a history turn into an OpenAI chat message. -/
def histToChat (m : HistMessage) : ChatMessage :=
  { role := match m.role with
      | HistRole.user => Role.user
      | HistRole.assistant => Role.assistant,
    content := m.content }

/-- Step 4 of `query`: the message list sent to the completion call — the
mode-dependent system instruction, then up to the last 10 history turns,
then the current user turn (wrapped in `composePrompt` when RAG context is
used and non-empty). -/
def queryMessages (useRAGContext : Bool) (context userMessage : String)
    (conversationHistory : List HistMessage) : List ChatMessage :=
  ({ role := Role.system,
     content :=
       if useRAGContext ∧ context ≠ "" then systemInstruction
       else generalSystemInstruction } : ChatMessage)
    :: (historyWindow conversationHistory).map histToChat
    ++ [ { role := Role.user,
           content :=
             if useRAGContext ∧ context ≠ "" then
               composePrompt userMessage context
             else userMessage } ]

/-- `result.metadata?.filename || undefined`. -/
def jsSourceOf (filename : Option String) : Option String :=
  match filename with
  | some s => if s = "" then none else some s
  | none => none

/-- The mapping of a search result into a response `context` entry
(Step 6 of `query`). -/
def toContextItem (r : SearchResult) : ContextItem :=
  { text := jsOrElse r.metadata.text "",
    score := r.score,
    source := jsSourceOf r.metadata.filename }

/-- The `tokensUsed` object of Step 6 of `query`:
`completion.usage?.⟨field⟩ || 0`. -/
def reportedTokensUsed (completion : Completion) : TokensUsed :=
  { prompt := (completion.usage.map Usage.prompt_tokens).getD 0,
    completion := (completion.usage.map Usage.completion_tokens).getD 0,
    total := (completion.usage.map Usage.total_tokens).getD 0 }

/-- Steps 1–3 of `query`, the block under the inner `try`: embed the user
message, search, and apply the retrieval filter, building (and, when
enabled, compressing) the context.  A thrown embedding or search call is
caught and yields the general-chat state `([], "", false)`.  Result:
`(searchResults, context, useRAGContext)`. -/
def queryRetrieval (env : ChatEnv) (userMessage : String) (topK : ℚ)
    (compressPrompt : Bool) (maxSummaryTokens : ℚ) :
    List SearchResult × String × Bool :=
  match env.generateEmbedding userMessage with
  | Except.error _ => ([], "", false)
  | Except.ok queryEmbedding =>
    match env.similaritySearch queryEmbedding topK with
    | Except.error _ => ([], "", false)
    | Except.ok searchResults =>
      let step := retrievalFilterStep searchResults
      if step.1 then
        let rawContext := buildContextFromResults step.2
        let context :=
          if compressPrompt then
            (compressContext env rawContext userMessage maxSummaryTokens).1
          else rawContext
        (searchResults, context, true)
      else
        (searchResults, "", false)

/-- `query` of chat.service.ts: the full RAG pipeline.  Remote calls come
from `env`; `Except.error` models a thrown error (the completion call of
Step 5 is the only one whose failure propagates — the outer `catch` logs
and rethrows). -/
def query (env : ChatEnv) (userMessage : String) (topK : ℚ)
    (useRAG compressPrompt : Bool) (maxSummaryTokens : ℚ)
    (conversationHistory : List HistMessage) : Except String ChatResponse :=
  let retrieval :=
    if useRAG then
      queryRetrieval env userMessage topK compressPrompt maxSummaryTokens
    else ([], "", false)
  let searchResults := retrieval.1
  let context := retrieval.2.1
  let useRAGContext := retrieval.2.2
  let messages := queryMessages useRAGContext context userMessage conversationHistory
  match env.createChatCompletion messages queryCompletionOptions with
  | Except.error e => Except.error e
  | Except.ok completion =>
    Except.ok
      { answer := jsOrElse (completionContent completion) "",
        context :=
          if useRAGContext ∧ searchResults.length > 0 then
            some (searchResults.map toContextItem)
          else none,
        tokensUsed := reportedTokensUsed completion }

/-! ### Theorems about the chat pipeline -/

theorem filter_relevant_pos (results : List SearchResult)
    (h : ∃ r ∈ results, relevanceThreshold ≤ r.score) :
    0 < (results.filter fun r => decide (relevanceThreshold ≤ r.score)).length := by
  obtain ⟨r, hr, hs⟩ := h
  have hmem : r ∈ results.filter fun r => decide (relevanceThreshold ≤ r.score) :=
    List.mem_filter.mpr ⟨hr, by simpa⟩
  exact List.length_pos.mpr (List.ne_nil_of_mem hmem)

theorem filter_relevant_nil (results : List SearchResult)
    (h : ¬ ∃ r ∈ results, relevanceThreshold ≤ r.score) :
    results.filter (fun r => decide (relevanceThreshold ≤ r.score)) = [] := by
  rw [List.filter_eq_nil_iff]
  intro a ha
  simp only [decide_eq_true_eq]
  exact fun hs => h ⟨a, ha, hs⟩

theorem retrievalFilterStep_relevant (results : List SearchResult)
    (h : ∃ r ∈ results, relevanceThreshold ≤ r.score) :
    retrievalFilterStep results =
      (true, results.filter fun r => decide (relevanceThreshold ≤ r.score)) := by
  unfold retrievalFilterStep
  rw [if_pos (filter_relevant_pos results h)]

theorem retrievalFilterStep_fallback (results : List SearchResult)
    (h : ¬ ∃ r ∈ results, relevanceThreshold ≤ r.score) (hne : results ≠ []) :
    retrievalFilterStep results = (true, results) := by
  unfold retrievalFilterStep
  rw [filter_relevant_nil results h]
  simp [List.length_pos.mpr hne]

theorem retrievalFilterStep_nil : retrievalFilterStep [] = (false, []) := rfl

/-- C1: the retrieval-filter step of `query` (threshold 0.5) satisfies
exactly this case order: if some result scores at least 0.5, context is
used and the selected results are exactly those scoring at least 0.5;
otherwise, with a non-empty result list, context is still used and all
results are selected; with an empty list no retrieval context is used. -/
theorem C1_retrieval_filter_cases (results : List SearchResult) :
    ((∃ r ∈ results, relevanceThreshold ≤ r.score) →
      retrievalFilterStep results =
        (true, results.filter fun r => decide (relevanceThreshold ≤ r.score))) ∧
    ((¬ ∃ r ∈ results, relevanceThreshold ≤ r.score) → results ≠ [] →
      retrievalFilterStep results = (true, results)) ∧
    (results = [] → retrievalFilterStep results = (false, [])) :=
  ⟨retrievalFilterStep_relevant results,
   retrievalFilterStep_fallback results,
   fun h => h ▸ retrievalFilterStep_nil⟩

/-- A search result with the given score, used in concrete instances. -/
def sampleResult (s : ℚ) : SearchResult :=
  { id := "r", score := s,
    metadata := { text := some "chunk text", filename := some "doc.txt" } }

/-- C1 witness: the three cases at `[0.9, 0.3]`, `[0.2]` and `[]`. -/
theorem C1_witness :
    retrievalFilterStep [sampleResult 0.9, sampleResult 0.3] =
      (true, [sampleResult 0.9]) ∧
    retrievalFilterStep [sampleResult 0.2] = (true, [sampleResult 0.2]) ∧
    retrievalFilterStep [] = (false, []) := by
  refine ⟨?_, ?_, ?_⟩
  · exact ((C1_retrieval_filter_cases [sampleResult 0.9, sampleResult 0.3]).1
      (by decide)).trans (by decide)
  · exact (C1_retrieval_filter_cases [sampleResult 0.2]).2.1 (by decide) (by decide)
  · exact (C1_retrieval_filter_cases []).2.2 rfl

/-- An oracle environment with constant behaviour, used for the concrete
instances below. -/
def constEnv (emb : Except String (List ℚ))
    (results : Except String (List SearchResult))
    (comp : Except String Completion) : ChatEnv :=
  { generateEmbedding := fun _ => emb,
    similaritySearch := fun _ _ => results,
    createChatCompletion := fun _ _ => comp }

/-- A successful completion used in the concrete instances. -/
def sampleCompletion : Completion :=
  { choices := [{ message := some { content := some "The answer." } }],
    usage := some { prompt_tokens := 10, completion_tokens := 5, total_tokens := 15 } }

/-- C4: when the estimated token count `contextText.length / 4` does not
exceed `maxSummaryTokens`, `compressContext` returns the context unchanged
and issues no completion call (the `false` component); in particular, with
`maxSummaryTokens = 500` any context of at most 2000 characters is
returned unchanged. -/
theorem C4_compression_skip (env : ChatEnv) (contextText userQuestion : String)
    (maxSummaryTokens : ℚ)
    (h : (contextText.length : ℚ) / 4 ≤ maxSummaryTokens) :
    compressContext env contextText userQuestion maxSummaryTokens =
      (contextText, false) := by
  unfold compressContext
  rw [if_pos h]

/-- A 2000-character context, the boundary case of the compression-skip
rule at the default `maxSummaryTokens = 500`. -/
def longContext : String := String.mk (List.replicate 2000 'x')

/-- C4 witness: a 2000-character context with `maxSummaryTokens = 500` is
returned unchanged with no completion call, even under an environment
whose completion call would fail. -/
theorem C4_witness :
    compressContext (constEnv (Except.ok []) (Except.ok [])
        (Except.error "completion down")) longContext "question" 500 =
      (longContext, false) :=
  C4_compression_skip _ longContext "question" 500
    (by simp only [longContext, String.length_mk, List.length_replicate]; decide)

/-- C5: if the completion call made inside `compressContext` fails, the
original uncompressed context is returned (the body's `try`/`catch`
absorbs the error), so a compression failure never fails the enclosing
query. -/
theorem C5_compression_failure_fallback (env : ChatEnv)
    (contextText userQuestion : String) (maxSummaryTokens : ℚ) (e : String)
    (h : env.createChatCompletion
        (compressionMessages userQuestion contextText maxSummaryTokens)
        (compressionOptionsFor maxSummaryTokens) = Except.error e) :
    (compressContext env contextText userQuestion maxSummaryTokens).1 =
      contextText := by
  simp only [compressContext, h]
  split
  · rfl
  · rfl

/-- C5 witness: under an environment whose completion call always fails,
compressing a 2001-character context (over the 500-token budget) returns
the context unchanged. -/
theorem C5_witness :
    (compressContext (constEnv (Except.ok []) (Except.ok [])
        (Except.error "OpenAI rate limit"))
      (String.mk (List.replicate 2001 'x')) "q" 500).1 =
      String.mk (List.replicate 2001 'x') :=
  C5_compression_failure_fallback _ _ "q" 500 "OpenAI rate limit" rfl

/-- C2: with `useRAG = true`, a failing embedding or similarity-search
call does not propagate: `query` returns exactly the result of a
completion made with the general-chat system instruction and the plain
(unwrapped) user message, with the `context` field absent. -/
theorem C2_retrieval_failure_degrades (env : ChatEnv) (userMessage : String)
    (topK : ℚ) (compressPrompt : Bool) (maxSummaryTokens : ℚ)
    (conversationHistory : List HistMessage)
    (hfail : (∃ e, env.generateEmbedding userMessage = Except.error e) ∨
      (∃ emb e, env.generateEmbedding userMessage = Except.ok emb ∧
        env.similaritySearch emb topK = Except.error e)) :
    query env userMessage topK true compressPrompt maxSummaryTokens
        conversationHistory =
      (env.createChatCompletion
          (({ role := Role.system, content := generalSystemInstruction } : ChatMessage)
            :: ((historyWindow conversationHistory).map histToChat
              ++ [{ role := Role.user, content := userMessage }]))
          queryCompletionOptions).map
        (fun completion =>
          { answer := jsOrElse (completionContent completion) "",
            context := none,
            tokensUsed := reportedTokensUsed completion }) := by
  have hret : queryRetrieval env userMessage topK compressPrompt maxSummaryTokens
      = ([], "", false) := by
    rcases hfail with ⟨e, he⟩ | ⟨emb, e, hemb, hse⟩
    · simp only [queryRetrieval, he]
    · simp only [queryRetrieval, hemb, hse]
  cases h : env.createChatCompletion
      (({ role := Role.system, content := generalSystemInstruction } : ChatMessage)
        :: ((historyWindow conversationHistory).map histToChat
          ++ [{ role := Role.user, content := userMessage }]))
      queryCompletionOptions with
  | error e => simp [query, hret, queryMessages, h, Except.map]
  | ok completion => simp [query, hret, queryMessages, h, Except.map]

/-- An environment whose embedding call fails and whose completion call
succeeds. -/
def embedFailEnv : ChatEnv :=
  constEnv (Except.error "embedding service down") (Except.ok [])
    (Except.ok sampleCompletion)

/-- C2 witness at a concrete failing environment. -/
theorem C2_witness :
    query embedFailEnv "hello" 5 true true 500 [] =
      (embedFailEnv.createChatCompletion
          (({ role := Role.system, content := generalSystemInstruction } : ChatMessage)
            :: ((historyWindow []).map histToChat
              ++ [{ role := Role.user, content := "hello" }]))
          queryCompletionOptions).map
        (fun completion =>
          { answer := jsOrElse (completionContent completion) "",
            context := none,
            tokensUsed := reportedTokensUsed completion }) :=
  C2_retrieval_failure_degrades embedFailEnv "hello" 5 true 500 []
    (Or.inl ⟨"embedding service down", rfl⟩)

/-- The search results of the C3 instance: scores 0.9 (above threshold)
and 0.3 (below threshold). -/
def resultsC3 : List SearchResult :=
  [ { id := "a", score := 0.9,
      metadata := { text := some "alpha", filename := some "doc.txt" } },
    { id := "b", score := 0.3,
      metadata := { text := some "beta", filename := some "doc.txt" } } ]

/-- An environment whose retrieval succeeds with `resultsC3` and whose
completion call returns `sampleCompletion`. -/
def envC3 : ChatEnv :=
  constEnv (Except.ok [1]) (Except.ok resultsC3) (Except.ok sampleCompletion)

/-- C3: FALSIFIED.  With search results of scores `[0.9, 0.3]` and
threshold 0.5, exactly one result is filtered, yet the `context` array of
the returned response has length 2: Step 6 of `query` maps over
`searchResults` (the full top-K list), not over the filtered results. -/
theorem C3_counterexample :
    (∃ r ∈ resultsC3, relevanceThreshold ≤ r.score) ∧
    (resultsC3.filter fun r => decide (relevanceThreshold ≤ r.score)).length = 1 ∧
    (match query envC3 "q" 5 true false 500 [] with
      | Except.ok resp => resp.context.map List.length
      | Except.error _ => none) = some 2 :=
  ⟨by decide, by decide, by decide⟩

/-- C3 (amended): when retrieval succeeds and some result scores at least
the 0.5 threshold, the `context` array of the returned response is the
full search-result list mapped to context items — its length equals the
number of search results returned by the similarity search (the full
top-K list), not the number of filtered results. -/
theorem C3_context_is_full_result_list (env : ChatEnv) (userMessage : String)
    (topK : ℚ) (compressPrompt : Bool) (maxSummaryTokens : ℚ)
    (conversationHistory : List HistMessage) (emb : List ℚ)
    (results : List SearchResult) (resp : ChatResponse)
    (hemb : env.generateEmbedding userMessage = Except.ok emb)
    (hsearch : env.similaritySearch emb topK = Except.ok results)
    (hbest : ∃ r ∈ results, relevanceThreshold ≤ r.score)
    (hq : query env userMessage topK true compressPrompt maxSummaryTokens
        conversationHistory = Except.ok resp) :
    resp.context = some (results.map toContextItem) ∧
    resp.context.map List.length = some results.length := by
  have hstep := retrievalFilterStep_relevant results hbest
  have hlen : 0 < results.length := by
    obtain ⟨r, hr, _⟩ := hbest
    exact List.length_pos.mpr (List.ne_nil_of_mem hr)
  simp only [query, queryRetrieval, hemb, hsearch, hstep, if_true, gt_iff_lt,
    true_and, if_pos hlen] at hq
  split at hq
  · exact absurd hq (by simp)
  · cases hq
    simp [List.length_map]

/-- The response returned by `query` on the C3 instance. -/
def respC3 : ChatResponse :=
  { answer := "The answer.",
    context := some (resultsC3.map toContextItem),
    tokensUsed := { prompt := 10, completion := 5, total := 15 } }

/-- C3 amended-theorem witness at the concrete C3 instance. -/
theorem C3_witness :
    respC3.context = some (resultsC3.map toContextItem) ∧
    respC3.context.map List.length = some resultsC3.length :=
  C3_context_is_full_result_list envC3 "q" 5 false 500 [] [1] resultsC3 respC3
    rfl rfl (by decide) rfl

/-! ### Chat controller input validation (chat.controller.ts, `POST /chat/query`) -/

/-- The request body `ChatQueryDto`; `none` models an absent field. -/
structure ChatQueryDto where
  message : Option String
  chatId : Option String
  topK : Option ℚ
  useRAG : Option Bool
  compressPrompt : Option Bool
  maxSummaryTokens : Option ℚ
deriving DecidableEq, Repr

/-- The validated, defaulted parameters the controller hands to
`chatService.query`. -/
structure ValidatedQuery where
  message : String
  topK : ℚ
  useRAG : Bool
  compressPrompt : Bool
  maxSummaryTokens : ℚ
deriving DecidableEq, Repr

/-- The validation prefix of the controller's `query` handler
(chat.controller.ts lines 36–67), run before any pipeline work.  Note that
JavaScript `!body.message` is also true for the empty string, so an empty
message already fails the first check; a `BadRequestException` is modelled
as `Except.error` with the exception message. -/
def validateQuery (body : ChatQueryDto) : Except String ValidatedQuery :=
  match body.message with
  | none => Except.error "Message is required and must be a string"
  | some m =>
    if m = "" then Except.error "Message is required and must be a string"
    else
      let message := m.trim
      if message.length = 0 then Except.error "Message cannot be empty"
      else
        let topK := body.topK.getD 5
        if topK < 1 ∨ topK > 20 then
          Except.error "topK must be between 1 and 20"
        else
          let useRAG := body.useRAG.getD true
          let compressPrompt := body.compressPrompt.getD true
          let maxSummaryTokens := body.maxSummaryTokens.getD 500
          if maxSummaryTokens < 100 ∨ maxSummaryTokens > 2000 then
            Except.error "maxSummaryTokens must be between 100 and 2000"
          else
            Except.ok { message := message, topK := topK, useRAG := useRAG,
                        compressPrompt := compressPrompt,
                        maxSummaryTokens := maxSummaryTokens }

/-- The controller's `query` handler restricted to the validation and the
pipeline call: validation errors short-circuit before `chatService.query`
runs; `hist` stands for the conversation history supplied by the
(out-of-scope) chat-history store, which the controller fetches only after
validation succeeds.  `topK` reaches `similaritySearch` untouched. -/
def controllerQuery (env : ChatEnv) (hist : List HistMessage)
    (body : ChatQueryDto) : Except String ChatResponse :=
  match validateQuery body with
  | Except.error e => Except.error e
  | Except.ok p =>
      query env p.message p.topK p.useRAG p.compressPrompt
        p.maxSummaryTokens hist

/-- The class of request bodies claim C9 calls invalid: missing, empty or
whitespace-only `message`; supplied `topK` outside `[1,20]`; or supplied
`maxSummaryTokens` outside `[100,2000]`. -/
def invalidQueryBody (body : ChatQueryDto) : Prop :=
  body.message = none ∨
  (∃ m, body.message = some m ∧ m.trim = "") ∨
  (∃ k, body.topK = some k ∧ (k < 1 ∨ k > 20)) ∨
  (∃ t, body.maxSummaryTokens = some t ∧ (t < 100 ∨ t > 2000))

/-! ### Vector store upsert (vector-store.service.ts, `storeVectors`) -/

/-- Metadata attached to an uploaded chunk's vector. -/
structure VectorMetadata where
  documentId : String
  filename : String
  chunkIndex : Nat
  totalChunks : Nat
  contentType : String
  size : Nat
  uploadedAt : String
  text : String
deriving DecidableEq, Repr

/-- `VectorWithMetadata` of vector-store.service.ts. -/
structure VectorWithMetadata where
  id : String
  values : List ℚ
  metadata : VectorMetadata
deriving DecidableEq, Repr

/-- The remote Pinecone index, modelled as an oracle; `Except.error`
models a rejected upsert call. -/
structure PineconeEnv where
  upsert : List VectorWithMetadata → Except String Unit

/-- `vectors.slice(i, i + batchSize)` for `i = 0, batchSize, ...`: the
batches the upsert loop sends. -/
def listBatches {α : Type} : Nat → List α → List (List α)
  | _, [] => []
  | 0, _ :: _ => []
  | b + 1, x :: xs =>
      (x :: xs).take (b + 1) :: listBatches (b + 1) ((x :: xs).drop (b + 1))
termination_by _ l => l.length
decreasing_by
  simp only [List.length_drop, List.length_cons]
  omega

/-- The sequential upsert loop: send each batch in order, stopping at the
first failure.  Returns the outcome together with the batches actually
handed to the remote call. -/
def upsertBatches (env : PineconeEnv) :
    List (List VectorWithMetadata) →
      Except String Unit × List (List VectorWithMetadata)
  | [] => (Except.ok (), [])
  | b :: rest =>
    match env.upsert b with
    | Except.error e => (Except.error e, [b])
    | Except.ok _ =>
      let r := upsertBatches env rest
      (r.1, b :: r.2)

/-- Whether `s` starts with the pattern `p`. -/
def startsWithChars : List Char → List Char → Bool
  | _, [] => true
  | [], _ :: _ => false
  | a :: s, b :: p => a = b && startsWithChars s p

/-- Whether the pattern `p` occurs as a contiguous run inside `s`. -/
def containsChars (p : List Char) : List Char → Bool
  | [] => startsWithChars [] p
  | a :: rest => startsWithChars (a :: rest) p || containsChars p rest

/-- JavaScript `s.includes(sub)`: substring containment. -/
def strIncludes (s sub : String) : Bool :=
  containsChars sub.data s.data

/-- The `catch` block of `storeVectors`: rewrite timeout and connection
errors, otherwise wrap as a generic storage failure (`error.message ||
'Unknown error'` treats an empty message as falsy). -/
def mapStoreError (msg : String) : String :=
  if strIncludes msg "timeout" then
    "Vector database storage timed out. Please try again later."
  else if strIncludes msg "ECONNREFUSED" ∨ strIncludes msg "ENOTFOUND"
      ∨ strIncludes msg "network" then
    "Unable to connect to vector database. Please check your connection and try again."
  else
    "Vector storage failed: " ++ (if msg = "" then "Unknown error" else msg)

/-- `storeVectors` of vector-store.service.ts.  `vectors = none` models a
missing (`undefined`/`null`) argument.  The guard `!vectors ||
vectors.length === 0` throws `'No vectors provided'` inside the `try`, so
that error, like every other, passes through the `catch` block's
rewriting.  The second component records the batches actually sent to the
remote upsert call. -/
def storeVectors (env : PineconeEnv)
    (vectors : Option (List VectorWithMetadata)) :
    Except String Unit × List (List VectorWithMetadata) :=
  let inner : Except String Unit × List (List VectorWithMetadata) :=
    match vectors with
    | none => (Except.error "No vectors provided", [])
    | some vs =>
      if vs.length = 0 then (Except.error "No vectors provided", [])
      else upsertBatches env (listBatches 100 vs)
  match inner.1 with
  | Except.ok _ => (Except.ok (), inner.2)
  | Except.error m => (Except.error (mapStoreError m), inner.2)

/-! ### Theorems about the controller validation and the vector store -/

/-- C9: every request body with a missing, empty or whitespace-only
message, an out-of-range `topK`, or an out-of-range `maxSummaryTokens` is
rejected with a bad-request error by the validation prefix of the query
handler; the handler's result is then that same error for every oracle
environment and history — no embedding, search, compression or completion
work can influence it, and the out-of-range value is never clamped to a
successful response. -/
theorem C9_invalid_request_rejected (body : ChatQueryDto)
    (hinv : invalidQueryBody body) :
    ∃ e, validateQuery body = Except.error e ∧
      ∀ (env : ChatEnv) (hist : List HistMessage),
        controllerQuery env hist body = Except.error e := by
  have hval : ∃ e, validateQuery body = Except.error e := by
    rcases hm : body.message with _ | m
    · exact ⟨"Message is required and must be a string",
        by simp [validateQuery, hm]⟩
    · simp only [validateQuery, hm]
      split_ifs with h0 h1 h2 h3
      · exact ⟨_, rfl⟩
      · exact ⟨_, rfl⟩
      · exact ⟨_, rfl⟩
      · exact ⟨_, rfl⟩
      · exfalso
        rcases hinv with hnone | ⟨m', hm', htrim⟩ | ⟨k, hk, hkout⟩ | ⟨t, ht, htout⟩
        · rw [hm] at hnone
          exact Option.some_ne_none m hnone
        · rw [hm] at hm'
          cases Option.some.inj hm'
          exact h1 (by rw [htrim]; rfl)
        · rw [hk] at h2
          simp only [Option.getD_some] at h2
          exact h2 hkout
        · rw [ht] at h3
          simp only [Option.getD_some] at h3
          exact h3 htout
  obtain ⟨e, he⟩ := hval
  exact ⟨e, he, fun env hist => by simp [controllerQuery, he]⟩

/-- A request body with `topK = 25`, outside the allowed `[1, 20]`, used
as the C9 instance. -/
def outOfRangeBody : ChatQueryDto :=
  { message := some "hello", chatId := none, topK := some 25, useRAG := none,
    compressPrompt := none, maxSummaryTokens := none }

/-- C9 witness: a request with `topK = 25` is rejected for every
environment and history. -/
theorem C9_witness :
    invalidQueryBody outOfRangeBody ∧
    ∃ e, validateQuery outOfRangeBody = Except.error e ∧
      ∀ (env : ChatEnv) (hist : List HistMessage),
        controllerQuery env hist outOfRangeBody = Except.error e :=
  ⟨Or.inr (Or.inr (Or.inl ⟨25, rfl, Or.inr (by decide)⟩)),
   C9_invalid_request_rejected outOfRangeBody
     (Or.inr (Or.inr (Or.inl ⟨25, rfl, Or.inr (by decide)⟩)))⟩

/-- A remote index whose upsert always succeeds. -/
def emptyUpsertEnv : PineconeEnv := { upsert := fun _ => Except.ok () }

/-- C10: FALSIFIED on the error message only.  On the empty vector list
`storeVectors` does throw rather than succeed as a no-op and sends nothing
to the remote upsert, but the guard's `'No vectors provided'` error is
re-caught by the function's own `catch` block and re-thrown wrapped, so
the error the caller observes is `'Vector storage failed: No vectors
provided'`, not `'No vectors provided'`. -/
theorem C10_counterexample :
    (storeVectors emptyUpsertEnv (some [])).1 =
      Except.error "Vector storage failed: No vectors provided" ∧
    ("Vector storage failed: No vectors provided" : String) ≠
      "No vectors provided" ∧
    (storeVectors emptyUpsertEnv (some [])).2 = [] :=
  ⟨rfl, by decide, rfl⟩

/-- C10 (amended): for a missing or empty vector list, `storeVectors`
fails with the wrapped guard error `'Vector storage failed: No vectors
provided'` instead of succeeding as a no-op, and the list of batches sent
to the remote upsert call is empty — for every remote environment. -/
theorem C10_empty_guard (env : PineconeEnv)
    (vectors : Option (List VectorWithMetadata))
    (h : vectors = none ∨ vectors = some []) :
    storeVectors env vectors =
      (Except.error "Vector storage failed: No vectors provided", []) := by
  rcases h with rfl | rfl <;> rfl

/-- C10 amended-theorem witness at `vectors = none`. -/
theorem C10_witness :
    storeVectors emptyUpsertEnv none =
      (Except.error "Vector storage failed: No vectors provided", []) :=
  C10_empty_guard emptyUpsertEnv none (Or.inl rfl)

end Casebase
